import Mathlib

/-!
Verification of the batch video compressor (`video_compressor.py`).

The program is a thin orchestration layer over an external encoder:
it enumerates a directory, runs the encoder once per file, measures file
sizes before/after, and accumulates aggregate statistics.  We embed the
pure logic shallowly: filesystem listings become explicit lists of
entries, the outcomes of the external process and of size queries become
an explicit per-file environment, exceptions become `Except String`,
and Python floats become `ℚ` (all arithmetic in the program is exact on
the values the claims mention).
-/

namespace VideoCompressor

/-! ## Python `pathlib` name handling

`Path(file).suffix` and `Path(file).stem` on a final path component:
the suffix is `name[i:]` where `i` is the index of the last dot,
provided `0 < i < len(name) - 1`; otherwise the suffix is empty and the
stem is the whole name. -/

/-- Index of the last occurrence of `c` in `cs`, if any. -/
def lastIdxOf (c : Char) : List Char → Option Nat
  | [] => none
  | a :: rest =>
    match lastIdxOf c rest with
    | some i => some (i + 1)
    | none => if a = c then some 0 else none

/-- `Path(name).suffix` for a single path component `name`. -/
def pySuffix (name : String) : String :=
  let cs := name.data
  match lastIdxOf '.' cs with
  | some i => if 0 < i ∧ i + 1 < cs.length then String.mk (cs.drop i) else ""
  | none => ""

/-- `Path(name).stem` for a single path component `name`. -/
def pyStem (name : String) : String :=
  let cs := name.data
  match lastIdxOf '.' cs with
  | some i => if 0 < i ∧ i + 1 < cs.length then String.mk (cs.take i) else name
  | none => name

/-- `os.path.join(folder, name)` for a folder with no trailing separator
and a plain child name, as produced by `os.listdir`. -/
def pyJoin (folder name : String) : String :=
  folder ++ "/" ++ name

/-! ## Data model

A per-file environment records the outcomes of the system interactions
`compress_video` performs for that file: the `subprocess.run` call
(which can itself raise, or complete with a return code and captured
standard error) and the two `os.path.getsize` queries (byte counts, or
an `OSError`).  Exceptions are modelled as the string `str(e)` that the
handler at the bottom of `compress_video` would render. -/

instance instDecEqExcept {ε α : Type} [DecidableEq ε] [DecidableEq α] :
    DecidableEq (Except ε α) := fun x y =>
  match x, y with
  | .ok a, .ok b => decidable_of_iff (a = b) (by simp)
  | .error a, .error b => decidable_of_iff (a = b) (by simp)
  | .ok _, .error _ => isFalse (fun h => Except.noConfusion h)
  | .error _, .ok _ => isFalse (fun h => Except.noConfusion h)

structure FileEnv where
  /-- `some msg`: `subprocess.run` raised an exception rendered as `msg`. -/
  procExc : Option String
  /-- `process.returncode` when the process completed. -/
  returncode : Int
  /-- `process.stderr` (text mode) when the process completed. -/
  stderr : String
  /-- `os.path.getsize(input_path)` in bytes, or the exception message. -/
  origSizeBytes : Except String Nat
  /-- `os.path.getsize(output_path)` in bytes, or the exception message. -/
  compSizeBytes : Except String Nat
  deriving DecidableEq

/-- One child of the input directory as seen by `os.listdir`: its name,
whether `os.path.isfile` holds for it, and the environment governing the
attempt to compress it (consulted only if the file is ever processed). -/
structure Entry where
  name : String
  isFile : Bool
  env : FileEnv
  deriving DecidableEq

/-- The state of the user-supplied path: whether `os.path.exists` holds,
whether `os.listdir` succeeds on it (false for a non-directory), and the
listing it returns when it does. -/
structure Folder where
  exists_ : Bool
  isDir : Bool
  entries : List Entry
  deriving DecidableEq

/-- `self.supported_formats` (line 12 of the source). -/
def supported_formats : List String := [".mp4", ".avi", ".mov", ".mkv"]

/-- Python `str.lower` on one character, restricted to ASCII case
folding (the supported suffixes are all ASCII, so matching against them
is unchanged by this restriction). -/
def lowerChar (c : Char) : Char :=
  if 'A' ≤ c ∧ c ≤ 'Z' then Char.ofNat (c.toNat + 32) else c

/-- Python `str.lower`, restricted to ASCII case folding. -/
def lowerString (s : String) : String :=
  String.mk (s.data.map lowerChar)

/-- The filter applied by `get_video_files` to a directory child
(line 28): a regular file whose lower-cased suffix is supported. -/
def videoFilter (e : Entry) : Bool :=
  e.isFile && decide (lowerString (pySuffix e.name) ∈ supported_formats)

/-- The entries `get_video_files` keeps, in listing order. -/
def get_video_entries (entries : List Entry) : List Entry :=
  entries.filter videoFilter

/-- `get_video_files` (lines 23-30): the joined paths
`os.path.join(folder_path, file)` of the kept entries. -/
def get_video_files (folder : String) (entries : List Entry) : List String :=
  (get_video_entries entries).map (fun e => pyJoin folder e.name)

/-! ## Measurement -/

/-- `get_file_size_mb` (lines 32-35) applied to the outcome of
`os.path.getsize`: byte count divided by `1024 * 1024`, exceptions
propagating. -/
def get_file_size_mb (sizeResult : Except String Nat) : Except String ℚ :=
  sizeResult.map (fun size_bytes => (size_bytes : ℚ) / (1024 * 1024))

/-- Python float division: raises `ZeroDivisionError` (message
`"float division by zero"`) on a zero divisor, unlike IEEE semantics. -/
def pyDiv (a b : ℚ) : Except String ℚ :=
  if b = 0 then .error "float division by zero" else .ok (a / b)

/-! ## Invocation: `compress_video` -/

/-- The success/failure payload of `compress_video`: either the
`details` dict of a success (sizes in MB and percentage reduction) or a
failure message string. -/
inductive Details where
  | msg (s : String)
  | record (original_size compressed_size reduction : ℚ)
  deriving DecidableEq

/-- The output file name computed at line 52:
`f"{stem}_compressed{suffix}"`.  The source places this name in the
input's own directory (`input_path_obj.parent`). -/
def out_name (name : String) : String :=
  pyStem name ++ "_compressed" ++ pySuffix name

/-- The `try` block of `compress_video` (lines 49-88): any exception
escapes as `.error`; a non-zero return code is an ordinary `(False, …)`
return carrying the captured standard error. -/
def compress_video_try (env : FileEnv) : Except String (Bool × Details) := do
  match env.procExc with
  | some e => throw e
  | none =>
    if env.returncode ≠ 0 then
      return (false, .msg ("Error: " ++ env.stderr))
    else
      let original_size ← get_file_size_mb env.origSizeBytes
      let compressed_size ← get_file_size_mb env.compSizeBytes
      let q ← pyDiv (original_size - compressed_size) original_size
      return (true, .record original_size compressed_size (q * 100))

/-- `compress_video` (lines 44-91): the `try` body with the
`except Exception` handler turning any exception into
`(False, "Error: " + str(e))`. -/
def compress_video (env : FileEnv) : Bool × Details :=
  match compress_video_try env with
  | .ok r => r
  | .error e => (false, .msg ("Error: " ++ e))

/-! ## Reporting: `batch_compress` -/

/-- The running aggregate of `batch_compress` (lines 113-117). -/
structure BatchStats where
  total_original_size : ℚ
  total_compressed_size : ℚ
  successful_compressions : Nat
  failed_compressions : Nat
  deriving DecidableEq

def initStats : BatchStats :=
  { total_original_size := 0
    total_compressed_size := 0
    successful_compressions := 0
    failed_compressions := 0 }

/-- One iteration of the loop at lines 121-138: update the aggregate
from the result of `compress_video`.  The `(true, msg)` branch is
unreachable (`compress_video` pairs `True` only with a details record,
proved below); on it Python would raise a `TypeError` indexing a
string. -/
def processFile (st : BatchStats) (e : Entry) : BatchStats :=
  match compress_video e.env with
  | (true, .record o c _) =>
    { st with
      successful_compressions := st.successful_compressions + 1
      total_original_size := st.total_original_size + o
      total_compressed_size := st.total_compressed_size + c }
  | (true, .msg _) => st
  | (false, _) =>
    { st with failed_compressions := st.failed_compressions + 1 }

/-- Observable outcome of one `batch_compress` call. -/
inductive BatchResult where
  /-- The folder failed `os.path.exists` (lines 98-100): the error is
  printed and the function returns with no file touched. -/
  | notFound
  /-- An exception escaped `batch_compress` uncaught (e.g.
  `NotADirectoryError` from `os.listdir` on an existing non-directory,
  or `ZeroDivisionError` from the summary line). -/
  | uncaught (msg : String)
  /-- No supported video file was found (lines 105-107). -/
  | noFiles
  /-- The summary block (lines 140-152): final statistics, and the
  overall reduction percentage printed only when at least one
  compression succeeded. -/
  | summary (stats : BatchStats) (overall : Option ℚ)
  deriving DecidableEq

/-- `batch_compress` (lines 93-152).  The emptiness test mirrors
`if not video_files` (the joined-path list and the kept-entry list have
the same length).  The overall reduction at line 150 is guarded only by
`successful_compressions > 0`, so its division is modelled faithfully
with `pyDiv`. -/
def batch_compress (d : Folder) : BatchResult :=
  if !d.exists_ then .notFound
  else if !d.isDir then .uncaught "NotADirectoryError"
  else
    let video_files := get_video_entries d.entries
    if video_files.isEmpty then .noFiles
    else
      let stats := video_files.foldl processFile initStats
      if stats.successful_compressions > 0 then
        match pyDiv (stats.total_original_size - stats.total_compressed_size)
            stats.total_original_size with
        | .ok q => .summary stats (some (q * 100))
        | .error e => .uncaught e
      else .summary stats none

/-! ## `format_time` -/

/-- Python `int(x)` on a float: truncation toward zero. -/
def pyTrunc (x : ℚ) : Int :=
  if 0 ≤ x then ⌊x⌋ else -⌊-x⌋

/-- Python `x // y` on floats: floor division. -/
def pyFloorDiv (x y : ℚ) : ℚ :=
  (⌊x / y⌋ : ℤ)

/-- Python `x % y` on floats: `x - y * ⌊x / y⌋`. -/
def pyMod (x y : ℚ) : ℚ :=
  x - y * (⌊x / y⌋ : ℤ)

/-- Python `f"{n:02d}"`: decimal rendering padded to width two (a sign
counts toward the width). -/
def pyFormat02d (n : Int) : String :=
  if n < 0 then "-" ++ toString (-n).toNat
  else if n.toNat < 10 then "0" ++ toString n.toNat
  else toString n.toNat

/-- `format_time` (lines 37-42). -/
def format_time (seconds : ℚ) : String :=
  let hours := pyTrunc (pyFloorDiv seconds 3600)
  let minutes := pyTrunc (pyFloorDiv (pyMod seconds 3600) 60)
  let secs := pyTrunc (pyMod seconds 60)
  pyFormat02d hours ++ ":" ++ pyFormat02d minutes ++ ":" ++ pyFormat02d secs

/-- Zero-padding of a natural number to two decimal digits, the effect
of `f"{n:02d}"` on non-negative values. -/
def pad2 (n : Nat) : String :=
  if n < 10 then "0" ++ toString n else toString n

/-! ## Helper lemmas: the possible results of `compress_video` -/

lemma compress_video_procExc (env : FileEnv) (e : String)
    (h : env.procExc = some e) :
    compress_video env = (false, .msg ("Error: " ++ e)) := by
  simp [compress_video, compress_video_try, h]

lemma compress_video_rc_ne (env : FileEnv) (h : env.procExc = none)
    (hrc : env.returncode ≠ 0) :
    compress_video env = (false, .msg ("Error: " ++ env.stderr)) := by
  simp [compress_video, compress_video_try, h, hrc, pure, Except.pure]

lemma compress_video_origErr (env : FileEnv) (e : String)
    (h : env.procExc = none) (hrc : env.returncode = 0)
    (ho : env.origSizeBytes = .error e) :
    compress_video env = (false, .msg ("Error: " ++ e)) := by
  simp [compress_video, compress_video_try, h, hrc, ho, get_file_size_mb,
    Except.map, Except.bind, pure, Except.pure, Bind.bind, Functor.map]

lemma compress_video_compErr (env : FileEnv) (n : Nat) (e : String)
    (h : env.procExc = none) (hrc : env.returncode = 0)
    (ho : env.origSizeBytes = .ok n) (hc : env.compSizeBytes = .error e) :
    compress_video env = (false, .msg ("Error: " ++ e)) := by
  simp [compress_video, compress_video_try, h, hrc, ho, hc, get_file_size_mb,
    Except.map, Except.bind, pure, Except.pure, Bind.bind, Functor.map]

lemma compress_video_zeroOrig (env : FileEnv) (m : Nat)
    (h : env.procExc = none) (hrc : env.returncode = 0)
    (ho : env.origSizeBytes = .ok 0) (hc : env.compSizeBytes = .ok m) :
    compress_video env = (false, .msg "Error: float division by zero") := by
  simp [compress_video, compress_video_try, h, hrc, ho, hc, get_file_size_mb,
    Except.map, Except.bind, pure, Except.pure, Bind.bind, Functor.map, pyDiv]

lemma compress_video_ok (env : FileEnv) (n m : Nat)
    (h : env.procExc = none) (hrc : env.returncode = 0)
    (ho : env.origSizeBytes = .ok n) (hc : env.compSizeBytes = .ok m)
    (hn : n ≠ 0) :
    compress_video env =
      (true, .record ((n : ℚ) / (1024 * 1024)) ((m : ℚ) / (1024 * 1024))
        (((n : ℚ) / (1024 * 1024) - (m : ℚ) / (1024 * 1024)) /
            ((n : ℚ) / (1024 * 1024)) * 100)) := by
  have hq : ((n : ℚ) / (1024 * 1024)) ≠ 0 :=
    div_ne_zero (Nat.cast_ne_zero.mpr hn) (by norm_num)
  simp [compress_video, compress_video_try, h, hrc, ho, hc, get_file_size_mb,
    Except.map, Except.bind, pure, Except.pure, Bind.bind, Functor.map, pyDiv, hq]

/-- Every run of `compress_video` ends in a success record with a
strictly positive original size, or in a failure message. -/
lemma compress_video_cases (env : FileEnv) :
    (∃ o c r, compress_video env = (true, Details.record o c r) ∧ 0 < o) ∨
    (∃ s, compress_video env = (false, Details.msg s)) := by
  cases hp : env.procExc with
  | some e => exact Or.inr ⟨_, compress_video_procExc env e hp⟩
  | none =>
    by_cases hrc : env.returncode = 0
    · cases ho : env.origSizeBytes with
      | error e => exact Or.inr ⟨_, compress_video_origErr env e hp hrc ho⟩
      | ok n =>
        cases hc : env.compSizeBytes with
        | error e => exact Or.inr ⟨_, compress_video_compErr env n e hp hrc ho hc⟩
        | ok m =>
          rcases Nat.eq_zero_or_pos n with hn | hn
          · subst hn
            exact Or.inr ⟨_, compress_video_zeroOrig env m hp hrc ho hc⟩
          · refine Or.inl ⟨_, _, _, compress_video_ok env n m hp hrc ho hc
              (Nat.pos_iff_ne_zero.mp hn), ?_⟩
            positivity
    · exact Or.inr ⟨_, compress_video_rc_ne env hp hrc⟩

/-! ## Helper lemmas: the batch fold -/

/-- The original size (MB) a file contributes to the totals: present
exactly when its compression succeeds. -/
def successOrigMB (e : Entry) : Option ℚ :=
  match compress_video e.env with
  | (true, .record o _ _) => some o
  | _ => none

/-- The compressed size (MB) a file contributes to the totals. -/
def successCompMB (e : Entry) : Option ℚ :=
  match compress_video e.env with
  | (true, .record _ c _) => some c
  | _ => none

lemma processFile_success {e : Entry} {o c r : ℚ} (st : BatchStats)
    (h : compress_video e.env = (true, .record o c r)) :
    processFile st e =
      { st with
        successful_compressions := st.successful_compressions + 1
        total_original_size := st.total_original_size + o
        total_compressed_size := st.total_compressed_size + c } := by
  simp [processFile, h]

lemma processFile_failure {e : Entry} {s : String} (st : BatchStats)
    (h : compress_video e.env = (false, .msg s)) :
    processFile st e =
      { st with failed_compressions := st.failed_compressions + 1 } := by
  simp [processFile, h]

/-- Complete characterisation of the batch fold: counts sum to the list
length and the size totals are the sums of the successful files'
contributions. -/
lemma foldl_processFile (files : List Entry) (st : BatchStats) :
    (files.foldl processFile st).successful_compressions +
        (files.foldl processFile st).failed_compressions =
      st.successful_compressions + st.failed_compressions + files.length ∧
    (files.foldl processFile st).total_original_size =
      st.total_original_size + ((files.filterMap successOrigMB).sum) ∧
    (files.foldl processFile st).total_compressed_size =
      st.total_compressed_size + ((files.filterMap successCompMB).sum) := by
  induction files generalizing st with
  | nil => simp
  | cons e rest ih =>
    rcases compress_video_cases e.env with ⟨o, c, r, h, _⟩ | ⟨s, h⟩
    · have ho : successOrigMB e = some o := by simp [successOrigMB, h]
      have hc : successCompMB e = some c := by simp [successCompMB, h]
      simp only [List.foldl_cons, processFile_success st h,
        List.filterMap_cons, ho, hc, List.sum_cons, List.length_cons]
      rcases ih { st with
          successful_compressions := st.successful_compressions + 1
          total_original_size := st.total_original_size + o
          total_compressed_size := st.total_compressed_size + c } with
        ⟨h1, h2, h3⟩
      simp only [] at h1 h2 h3
      refine ⟨?_, ?_, ?_⟩
      · rw [h1]; omega
      · rw [h2]; ring
      · rw [h3]; ring
    · have ho : successOrigMB e = none := by simp [successOrigMB, h]
      have hc : successCompMB e = none := by simp [successCompMB, h]
      simp only [List.foldl_cons, processFile_failure st h,
        List.filterMap_cons, ho, hc, List.length_cons]
      rcases ih { st with
          failed_compressions := st.failed_compressions + 1 } with ⟨h1, h2, h3⟩
      simp only [] at h1 h2 h3
      refine ⟨?_, ?_, ?_⟩
      · rw [h1]; omega
      · rw [h2]
      · rw [h3]

/-- Positivity invariant of the fold: the accumulated original total
stays non-negative, and is strictly positive as soon as one compression
has succeeded. -/
lemma foldl_processFile_pos (files : List Entry) (st : BatchStats)
    (h0 : 0 ≤ st.total_original_size)
    (h1 : 0 < st.successful_compressions → 0 < st.total_original_size) :
    0 ≤ (files.foldl processFile st).total_original_size ∧
      (0 < (files.foldl processFile st).successful_compressions →
        0 < (files.foldl processFile st).total_original_size) := by
  induction files generalizing st with
  | nil => exact ⟨h0, h1⟩
  | cons e rest ih =>
    rw [List.foldl_cons]
    rcases compress_video_cases e.env with ⟨o, c, r, h, hpos⟩ | ⟨s, h⟩
    · rw [processFile_success st h]
      refine ih _ ?_ ?_
      · show 0 ≤ st.total_original_size + o
        linarith
      · intro _
        show 0 < st.total_original_size + o
        linarith
    · rw [processFile_failure st h]
      exact ih _ h0 h1

/-! ## Helper lemmas: the shape of `batch_compress` results -/

/-- On an existing directory with at least one discovered video file,
`batch_compress` always reaches the summary block, with the statistics
given by folding `processFile` over the discovered files. -/
lemma batch_compress_shape (d : Folder) (hex : d.exists_ = true)
    (hdir : d.isDir = true) (hne : get_video_entries d.entries ≠ []) :
    ∃ overall, batch_compress d =
      .summary ((get_video_entries d.entries).foldl processFile initStats)
        overall := by
  have hemp : (get_video_entries d.entries).isEmpty = false := by
    cases hls : get_video_entries d.entries with
    | nil => exact absurd hls hne
    | cons a l => rfl
  simp only [batch_compress, hex, hdir, Bool.not_true, Bool.false_eq_true,
    if_false, hemp]
  set stats := (get_video_entries d.entries).foldl processFile initStats with hst
  by_cases hz : 0 < stats.successful_compressions
  · have hpos : 0 < stats.total_original_size := by
      have := foldl_processFile_pos (get_video_entries d.entries) initStats
        (by norm_num [initStats]) (by norm_num [initStats])
      exact this.2 hz
    rw [if_pos hz]
    have hdiv : pyDiv (stats.total_original_size - stats.total_compressed_size)
        stats.total_original_size =
        .ok ((stats.total_original_size - stats.total_compressed_size) /
          stats.total_original_size) := by
      unfold pyDiv
      rw [if_neg (ne_of_gt hpos)]
    rw [hdiv]
    exact ⟨_, rfl⟩
  · rw [if_neg hz]
    exact ⟨none, rfl⟩

/-- Whenever `batch_compress` reports a summary, its statistics are the
fold of `processFile` over the discovered files. -/
lemma batch_compress_summary_stats (d : Folder) (stats : BatchStats)
    (overall : Option ℚ)
    (h : batch_compress d = .summary stats overall) :
    stats = (get_video_entries d.entries).foldl processFile initStats := by
  simp only [batch_compress] at h
  split at h
  · simp at h
  · split at h
    · simp at h
    · split at h
      · simp at h
      · split at h
        · split at h
          · simp only [BatchResult.summary.injEq] at h
            exact h.1.symm
          · simp at h
        · simp only [BatchResult.summary.injEq] at h
          exact h.1.symm

/-- Whenever `batch_compress` reports an overall reduction, it is the
summed-totals formula of line 150. -/
lemma batch_compress_overall (d : Folder) (stats : BatchStats) (r : ℚ)
    (h : batch_compress d = .summary stats (some r)) :
    r = (stats.total_original_size - stats.total_compressed_size) /
          stats.total_original_size * 100 := by
  simp only [batch_compress] at h
  split at h
  · simp at h
  · split at h
    · simp at h
    · split at h
      · simp at h
      · split at h
        · split at h
          · rename_i q hq
            simp only [BatchResult.summary.injEq, Option.some.injEq] at h
            unfold pyDiv at hq
            split at hq
            · exact absurd hq (by simp)
            · simp only [Except.ok.injEq] at hq
              rw [← h.1, ← h.2, ← hq]
          · simp at h
        · simp at h

/-- Right injectivity of path joining with a fixed folder. -/
lemma pyJoin_right_inj (folder a b : String)
    (h : pyJoin folder a = pyJoin folder b) : a = b := by
  unfold pyJoin at h
  have hd := congrArg String.data h
  simp only [String.data_append] at hd
  exact String.ext (List.append_cancel_left hd)

/-! ## Concrete example data -/

/-- A per-file environment in which no interaction is ever consulted. -/
def blankEnv : FileEnv :=
  { procExc := none, returncode := 0, stderr := ""
    origSizeBytes := .ok 0, compSizeBytes := .ok 0 }

/-- A 100 MB file compressed to 50 MB (sizes in bytes). -/
def envA : FileEnv :=
  { procExc := none, returncode := 0, stderr := ""
    origSizeBytes := .ok 104857600, compSizeBytes := .ok 52428800 }

/-- A 10 MB file compressed to 9 MB (sizes in bytes). -/
def envB : FileEnv :=
  { procExc := none, returncode := 0, stderr := ""
    origSizeBytes := .ok 10485760, compSizeBytes := .ok 9437184 }

/-- A directory holding the two files of the worked aggregate example:
100 MB → 50 MB and 10 MB → 9 MB. -/
def twoFileDir : Folder :=
  { exists_ := true, isDir := true
    entries := [⟨"a.mp4", true, envA⟩, ⟨"b.mp4", true, envB⟩] }

/-- An environment whose encoder process exits with status 1 and the
diagnostic text `"boom"` on its standard error. -/
def failEnv : FileEnv :=
  { procExc := none, returncode := 1, stderr := "boom"
    origSizeBytes := .ok 0, compSizeBytes := .ok 0 }

def failEntry : Entry := ⟨"v.mp4", true, failEnv⟩

/-- A directory whose first file fails to encode and whose second file
would succeed. -/
def failFirstDir : Folder :=
  { exists_ := true, isDir := true
    entries := [failEntry, ⟨"w.mp4", true, envA⟩] }

/-! ## The claims -/

set_option maxRecDepth 8000 in
/-- C1: at the end of a batch run in which at least one compression
succeeded, the reported overall reduction percentage equals
`(Σ original − Σ compressed) / Σ original × 100` computed from the
summed totals, not the mean of the per-file percentages; on a batch of
two successful files 100 MB → 50 MB and 10 MB → 9 MB the reported
overall reduction is `510/11 ≈ 46.4` %, not the `30` % that the mean of
the per-file percentages (50 % and 10 %) would give. -/
theorem C1_overall_reduction_from_summed_totals :
    (∀ (d : Folder) (stats : BatchStats) (r : ℚ),
        batch_compress d = .summary stats (some r) →
        r = (stats.total_original_size - stats.total_compressed_size) /
              stats.total_original_size * 100) ∧
    batch_compress twoFileDir = .summary ⟨110, 59, 2, 0⟩ (some (510 / 11)) ∧
    (510 / 11 : ℚ) ≠ (50 + 10) / 2 ∧
    |(510 / 11 : ℚ) - 46.4| < 1 / 10 := by
  refine ⟨batch_compress_overall, ?_, by norm_num, by rw [abs_lt]; constructor <;> norm_num⟩
  with_unfolding_all decide

/-- Closed witness for C1's universally quantified part, at the worked
two-file example. -/
theorem C1_overall_reduction_from_summed_totals_witness :
    (510 / 11 : ℚ) = ((110 : ℚ) - 59) / 110 * 100 :=
  C1_overall_reduction_from_summed_totals.1 twoFileDir ⟨110, 59, 2, 0⟩
    (510 / 11) C1_overall_reduction_from_summed_totals.2.1

/-- C2: when the child encoder process exits with a non-zero status,
that file is recorded as a failure whose details string carries the
captured standard error verbatim (prefixed by `"Error: "`), the batch is
not aborted, and every subsequent file in the batch is still folded into
the final summary. -/
theorem C2_encoder_failure_recorded_batch_continues
    (d : Folder) (pre post : List Entry) (e : Entry)
    (hex : d.exists_ = true) (hdir : d.isDir = true)
    (hsplit : get_video_entries d.entries = pre ++ e :: post)
    (hexc : e.env.procExc = none) (hrc : e.env.returncode ≠ 0) :
    compress_video e.env = (false, Details.msg ("Error: " ++ e.env.stderr)) ∧
    processFile (pre.foldl processFile initStats) e =
      { pre.foldl processFile initStats with
        failed_compressions :=
          (pre.foldl processFile initStats).failed_compressions + 1 } ∧
    ∃ overall, batch_compress d =
      .summary (post.foldl processFile
        (processFile (pre.foldl processFile initStats) e)) overall := by
  have hcv := compress_video_rc_ne e.env hexc hrc
  refine ⟨hcv, processFile_failure _ hcv, ?_⟩
  have hne : get_video_entries d.entries ≠ [] := by
    rw [hsplit]
    simp
  rcases batch_compress_shape d hex hdir hne with ⟨overall, hb⟩
  rw [hsplit, List.foldl_append, List.foldl_cons] at hb
  exact ⟨overall, hb⟩

/-- Closed witness for C2: in `failFirstDir` the first file's non-zero
exit is recorded as a failure carrying its stderr. -/
theorem C2_encoder_failure_recorded_batch_continues_witness :
    compress_video failEntry.env =
      (false, Details.msg ("Error: " ++ failEntry.env.stderr)) :=
  (C2_encoder_failure_recorded_batch_continues failFirstDir []
    [⟨"w.mp4", true, envA⟩] failEntry rfl rfl (by decide) rfl
    (by decide)).1

/-- C3: at the completion of any batch run that reaches the summary,
the successful and failed counts sum to the number of discovered files
(equally, to the length of the joined-path list for any folder path),
and the two size totals sum exactly the successful results'
contributions — a failed file contributes nothing to either total. -/
theorem C3_counts_partition_totals_over_successes
    (d : Folder) (stats : BatchStats) (overall : Option ℚ)
    (h : batch_compress d = .summary stats overall) :
    stats.successful_compressions + stats.failed_compressions =
      (get_video_entries d.entries).length ∧
    (∀ folder : String,
      (get_video_files folder d.entries).length =
        (get_video_entries d.entries).length) ∧
    stats.total_original_size =
      ((get_video_entries d.entries).filterMap successOrigMB).sum ∧
    stats.total_compressed_size =
      ((get_video_entries d.entries).filterMap successCompMB).sum := by
  rcases foldl_processFile (get_video_entries d.entries) initStats with
    ⟨h1, h2, h3⟩
  rw [batch_compress_summary_stats d stats overall h]
  refine ⟨?_, fun folder => ?_, ?_, ?_⟩
  · rw [h1]
    simp [initStats]
  · simp [get_video_files]
  · rw [h2]
    simp [initStats]
  · rw [h3]
    simp [initStats]

set_option maxRecDepth 8000 in
/-- Closed witness for C3 at the worked two-file example. -/
theorem C3_counts_partition_totals_over_successes_witness :
    (2 : Nat) + 0 = (get_video_entries twoFileDir.entries).length :=
  (C3_counts_partition_totals_over_successes twoFileDir ⟨110, 59, 2, 0⟩
    (some (510 / 11)) (by with_unfolding_all decide)).1

/-- C4: for an existing directory, `get_video_files` returns exactly
the regular files directly inside it whose lower-cased extension is in
the supported set: a joined path is in the result iff a listing entry
with that name is a regular file with a supported extension; distinct
names produce no duplicates; and a directory with one `.mp4` file and
one `.txt` file yields exactly the one `.mp4` path. -/
theorem C4_discovery_exactly_supported_regular_files :
    (∀ (folder : String) (entries : List Entry) (name : String),
        pyJoin folder name ∈ get_video_files folder entries ↔
          ∃ e ∈ entries, e.name = name ∧ e.isFile = true ∧
            lowerString (pySuffix e.name) ∈ supported_formats) ∧
    (∀ (folder : String) (entries : List Entry),
        (entries.map Entry.name).Nodup →
        (get_video_files folder entries).Nodup) ∧
    get_video_files "D" [⟨"a.mp4", true, blankEnv⟩, ⟨"b.txt", true, blankEnv⟩]
      = ["D/a.mp4"] := by
  refine ⟨fun folder entries name => ?_, fun folder entries hnd => ?_,
    by decide⟩
  · constructor
    · intro hmem
      rcases List.mem_map.mp hmem with ⟨e, he, hje⟩
      have hf := (List.mem_filter.mp he).2
      simp only [videoFilter, Bool.and_eq_true, decide_eq_true_eq] at hf
      exact ⟨e, (List.mem_filter.mp he).1,
        pyJoin_right_inj folder e.name name hje, hf.1, hf.2⟩
    · rintro ⟨e, he, hname, hfile, hsupp⟩
      refine List.mem_map.mpr ⟨e, List.mem_filter.mpr ⟨he, ?_⟩, by rw [hname]⟩
      simp only [videoFilter, Bool.and_eq_true, decide_eq_true_eq]
      exact ⟨hfile, hsupp⟩
  · unfold get_video_files get_video_entries
    have hsub : ((entries.filter videoFilter).map Entry.name).Sublist
        (entries.map Entry.name) :=
      (List.filter_sublist entries).map Entry.name
    have hnd2 : ((entries.filter videoFilter).map Entry.name).Nodup :=
      hnd.sublist hsub
    have hmm : (entries.filter videoFilter).map (fun e => pyJoin folder e.name)
        = ((entries.filter videoFilter).map Entry.name).map
            (fun n => pyJoin folder n) := by
      rw [List.map_map]
      rfl
    rw [hmm]
    exact hnd2.map (fun a b => pyJoin_right_inj folder a b)

/-- Closed witness for C4: membership at the concrete mixed directory. -/
theorem C4_discovery_exactly_supported_regular_files_witness :
    pyJoin "D" "a.mp4" ∈
      get_video_files "D"
        [⟨"a.mp4", true, blankEnv⟩, ⟨"b.txt", true, blankEnv⟩] :=
  (C4_discovery_exactly_supported_regular_files.1 "D"
    [⟨"a.mp4", true, blankEnv⟩, ⟨"b.txt", true, blankEnv⟩] "a.mp4").mpr
    ⟨⟨"a.mp4", true, blankEnv⟩, by decide, rfl, rfl, by decide⟩

/-- C5 counterexample: on a path that exists but is not a directory,
the validation at line 98 (which tests only `os.path.exists`) is passed,
and the batch does not end in the not-found report: `os.listdir` raises
an uncaught `NotADirectoryError` instead. -/
theorem C5_counterexample_existing_nondirectory :
    batch_compress ⟨true, false, []⟩ ≠ BatchResult.notFound ∧
      batch_compress ⟨true, false, []⟩ =
        .uncaught "NotADirectoryError" := by
  constructor
  · decide
  · decide

/-- C5 (amended): a path that does not exist makes `batch_compress`
fail fast with the not-found report, zero files processed; a path that
exists but is not a directory is not caught by the validation — the
directory listing raises an uncaught `NotADirectoryError`, which also
aborts the whole batch with zero files processed but is not the
not-found report. -/
theorem C5_amended_missing_path_fails_fast (d : Folder) :
    (d.exists_ = false → batch_compress d = .notFound) ∧
    (d.exists_ = true → d.isDir = false →
      batch_compress d = .uncaught "NotADirectoryError") := by
  constructor
  · intro h
    simp [batch_compress, h]
  · intro h1 h2
    simp [batch_compress, h1, h2]

/-- Closed witness for C5's amended statement at a missing path. -/
theorem C5_amended_missing_path_fails_fast_witness :
    batch_compress ⟨false, false, []⟩ = BatchResult.notFound :=
  (C5_amended_missing_path_fails_fast ⟨false, false, []⟩).1 rfl

/-- C6: the reported size in megabytes is the byte count divided by
`1024 * 1024` (binary mega, `1048576`), and on every successful
compression with non-zero original size the reported reduction is
`((original − compressed) / original) * 100` over those megabyte
sizes. -/
theorem C6_binary_mega_and_reduction_formula :
    (∀ n : Nat, get_file_size_mb (.ok n) = .ok ((n : ℚ) / 1048576)) ∧
    (∀ (env : FileEnv) (n m : Nat),
        env.procExc = none → env.returncode = 0 →
        env.origSizeBytes = .ok n → env.compSizeBytes = .ok m → n ≠ 0 →
        compress_video env =
          (true, .record ((n : ℚ) / 1048576) ((m : ℚ) / 1048576)
            (((n : ℚ) / 1048576 - (m : ℚ) / 1048576) /
                ((n : ℚ) / 1048576) * 100))) := by
  have h1048576 : ((1024 : ℚ) * 1024) = 1048576 := by norm_num
  constructor
  · intro n
    simp [get_file_size_mb, Except.map, h1048576]
  · intro env n m hp hrc ho hc hn
    rw [compress_video_ok env n m hp hrc ho hc hn, h1048576]

/-- Closed witness for C6 on a 1 MB file compressed to half a MB. -/
theorem C6_binary_mega_and_reduction_formula_witness :
    compress_video
      ⟨none, 0, "", .ok 1048576, .ok 524288⟩ =
      (true, .record ((1048576 : ℚ) / 1048576) ((524288 : ℚ) / 1048576)
        (((1048576 : ℚ) / 1048576 - (524288 : ℚ) / 1048576) /
            ((1048576 : ℚ) / 1048576) * 100)) :=
  C6_binary_mega_and_reduction_formula.2
    ⟨none, 0, "", .ok 1048576, .ok 524288⟩ 1048576 524288 rfl rfl rfl rfl
    (by norm_num)

/-- C7: when the original file's size is zero, the reduction expression
raises Python's `ZeroDivisionError`, which the handler converts into a
failure result — the function never returns a success variant for such
a file, so no NaN/infinite reduction can reach the summary. -/
theorem C7_zero_original_size_is_failure_not_nan
    (env : FileEnv) (m : Nat)
    (hp : env.procExc = none) (hrc : env.returncode = 0)
    (ho : env.origSizeBytes = .ok 0) (hc : env.compSizeBytes = .ok m) :
    compress_video env = (false, .msg "Error: float division by zero") ∧
    ∀ d : Details, compress_video env ≠ (true, d) := by
  have h := compress_video_zeroOrig env m hp hrc ho hc
  refine ⟨h, fun d hcontra => ?_⟩
  rw [h] at hcontra
  exact Bool.false_ne_true (congrArg Prod.fst hcontra)

/-- Closed witness for C7 at a concrete zero-byte original. -/
theorem C7_zero_original_size_is_failure_not_nan_witness :
    compress_video ⟨none, 0, "", .ok 0, .ok 7⟩ =
      (false, .msg "Error: float division by zero") :=
  (C7_zero_original_size_is_failure_not_nan
    ⟨none, 0, "", .ok 0, .ok 7⟩ 7 rfl rfl rfl rfl).1

/-! ## Helper lemmas: floor arithmetic for `format_time` -/

lemma floor_div_intCast (x : ℚ) (n : ℤ) (hn : 0 < n) :
    ⌊x / (n : ℚ)⌋ = ⌊x⌋ / n := by
  have hnq : (0 : ℚ) < (n : ℚ) := by exact_mod_cast hn
  have hdm := Int.ediv_add_emod ⌊x⌋ n
  have hr0 : 0 ≤ ⌊x⌋ % n := Int.emod_nonneg ⌊x⌋ (ne_of_gt hn)
  have hrn : ⌊x⌋ % n < n := Int.emod_lt_of_pos ⌊x⌋ hn
  have hfl : (⌊x⌋ : ℚ) ≤ x := Int.floor_le x
  have hfu : x < ⌊x⌋ + 1 := Int.lt_floor_add_one x
  rw [Int.floor_eq_iff]
  constructor
  · rw [le_div_iff₀ hnq]
    have hle : n * (⌊x⌋ / n) ≤ ⌊x⌋ := by linarith
    calc ((⌊x⌋ / n : ℤ) : ℚ) * (n : ℚ)
        = ((n * (⌊x⌋ / n) : ℤ) : ℚ) := by push_cast; ring
      _ ≤ (⌊x⌋ : ℚ) := by exact_mod_cast hle
      _ ≤ x := hfl
  · rw [div_lt_iff₀ hnq]
    have hlt : ⌊x⌋ + 1 ≤ n * (⌊x⌋ / n) + n := by linarith
    calc x < (⌊x⌋ : ℚ) + 1 := hfu
      _ ≤ ((n * (⌊x⌋ / n) + n : ℤ) : ℚ) := by exact_mod_cast hlt
      _ = (((⌊x⌋ / n : ℤ) : ℚ) + 1) * (n : ℚ) := by push_cast; ring

lemma pyTrunc_nonneg (x : ℚ) (hx : 0 ≤ x) : pyTrunc x = ⌊x⌋ := by
  unfold pyTrunc
  rw [if_pos hx]

lemma pyTrunc_intCast (k : ℤ) (hk : 0 ≤ k) : pyTrunc ((k : ℤ) : ℚ) = k := by
  rw [pyTrunc_nonneg _ (by exact_mod_cast hk), Int.floor_intCast]

lemma pyFormat02d_nonneg (k : ℤ) (hk : 0 ≤ k) :
    pyFormat02d k = pad2 k.toNat := by
  unfold pyFormat02d pad2
  rw [if_neg (not_lt.mpr hk)]

/-- C8: for every non-negative number of seconds, `format_time` renders
`HH:MM:SS` with each field rendered zero-padded to two digits (hours
unbounded beyond 99), minutes and seconds below 60, and the three fields
decomposing the floor of the input; in particular `format_time 0 =
"00:00:00"`, `format_time 3661 = "01:01:01"` and `format_time 59 =
"00:00:59"`. -/
theorem C8_format_time_hh_mm_ss :
    (∀ s : ℚ, 0 ≤ s →
        ∃ h m sec : Nat,
          format_time s = pad2 h ++ ":" ++ pad2 m ++ ":" ++ pad2 sec ∧
          m < 60 ∧ sec < 60 ∧
          (h : ℤ) * 3600 + (m : ℤ) * 60 + (sec : ℤ) = ⌊s⌋) ∧
    format_time 0 = "00:00:00" ∧
    format_time 3661 = "01:01:01" ∧
    format_time 59 = "00:00:59" := by
  refine ⟨?_, by with_unfolding_all decide, by with_unfolding_all decide,
    by with_unfolding_all decide⟩
  intro s hs
  have hN0 : (0 : ℤ) ≤ ⌊s⌋ := Int.floor_nonneg.mpr hs
  have hA : ⌊s / (60 : ℚ)⌋ = ⌊s⌋ / 60 := by
    exact_mod_cast floor_div_intCast s 60 (by norm_num)
  have hB : ⌊s / (3600 : ℚ)⌋ = ⌊s⌋ / 3600 := by
    exact_mod_cast floor_div_intCast s 3600 (by norm_num)
  have e1 : pyTrunc (pyFloorDiv s 3600) = ⌊s⌋ / 3600 := by
    unfold pyFloorDiv
    rw [hB]
    exact pyTrunc_intCast _ (by omega)
  have hmin_floor : ⌊pyMod s 3600 / (60 : ℚ)⌋ =
      ⌊s⌋ / 60 - 60 * (⌊s⌋ / 3600) := by
    unfold pyMod
    rw [hB]
    have hre : (s - 3600 * ((⌊s⌋ / 3600 : ℤ) : ℚ)) / 60
        = s / 60 - ((60 * (⌊s⌋ / 3600) : ℤ) : ℚ) := by
      push_cast
      ring
    rw [hre, Int.floor_sub_int, hA]
  have e2 : pyTrunc (pyFloorDiv (pyMod s 3600) 60) =
      ⌊s⌋ / 60 - 60 * (⌊s⌋ / 3600) := by
    unfold pyFloorDiv
    rw [hmin_floor]
    exact pyTrunc_intCast _ (by omega)
  have hmod60_nonneg : 0 ≤ pyMod s 60 := by
    unfold pyMod
    have h1 : (⌊s / (60 : ℚ)⌋ : ℚ) ≤ s / 60 := Int.floor_le _
    have h2 : (⌊s / (60 : ℚ)⌋ : ℚ) * 60 ≤ s :=
      (le_div_iff₀ (by norm_num)).mp h1
    linarith
  have e3 : pyTrunc (pyMod s 60) = ⌊s⌋ - 60 * (⌊s⌋ / 60) := by
    rw [pyTrunc_nonneg _ hmod60_nonneg]
    unfold pyMod
    rw [hA]
    have hre : s - 60 * ((⌊s⌋ / 60 : ℤ) : ℚ)
        = s - ((60 * (⌊s⌋ / 60) : ℤ) : ℚ) := by
      push_cast
      ring
    rw [hre, Int.floor_sub_int]
  refine ⟨(⌊s⌋ / 3600).toNat, (⌊s⌋ / 60 - 60 * (⌊s⌋ / 3600)).toNat,
    (⌊s⌋ - 60 * (⌊s⌋ / 60)).toNat, ?_, by omega, by omega, by omega⟩
  simp only [format_time]
  rw [e1, e2, e3, pyFormat02d_nonneg _ (by omega),
    pyFormat02d_nonneg _ (by omega), pyFormat02d_nonneg _ (by omega)]

/-- Closed witness for C8's universal part at 3661 seconds. -/
theorem C8_format_time_hh_mm_ss_witness :
    (0 : ℚ) ≤ 3661 ∧
      ∃ h m sec : Nat,
        format_time 3661 = pad2 h ++ ":" ++ pad2 m ++ ":" ++ pad2 sec ∧
        m < 60 ∧ sec < 60 ∧
        (h : ℤ) * 3600 + (m : ℤ) * 60 + (sec : ℤ) = ⌊(3661 : ℚ)⌋ :=
  ⟨by norm_num, C8_format_time_hh_mm_ss.1 3661 (by norm_num)⟩

/-- C9: `compress_video` is total at its interface: every run returns a
pair whose first component is a boolean, a success always carries the
details record, a failure always carries a string message, and an
exception raised inside the body (here: by `subprocess.run`) is
converted into a failure result rather than propagated. -/
theorem C9_compress_video_never_raises (env : FileEnv) :
    ((∃ o c r, compress_video env = (true, Details.record o c r)) ∨
      (∃ s, compress_video env = (false, Details.msg s))) ∧
    (∀ e, env.procExc = some e →
      compress_video env = (false, Details.msg ("Error: " ++ e))) := by
  constructor
  · rcases compress_video_cases env with ⟨o, c, r, h, _⟩ | ⟨s, h⟩
    · exact Or.inl ⟨o, c, r, h⟩
    · exact Or.inr ⟨s, h⟩
  · intro e he
    exact compress_video_procExc env e he

/-- Closed witness for C9: a raised exception inside `subprocess.run`
becomes a failure message. -/
theorem C9_compress_video_never_raises_witness :
    compress_video ⟨some "kaboom", 0, "", .ok 0, .ok 0⟩ =
      (false, Details.msg ("Error: " ++ "kaboom")) :=
  (C9_compress_video_never_raises ⟨some "kaboom", 0, "", .ok 0, .ok 0⟩).2
    "kaboom" rfl

/-- C10: discovery filters solely by the `isfile` test and the
lower-cased extension — never by the rest of the name — so a previous
run's output `movie_compressed.mp4` is discovered again, and
`compress_video` would write it to
`movie_compressed_compressed.mp4`. -/
theorem C10_compressed_suffix_not_skipped :
    (∀ e1 e2 : Entry, e1.isFile = e2.isFile →
        lowerString (pySuffix e1.name) = lowerString (pySuffix e2.name) →
        videoFilter e1 = videoFilter e2) ∧
    (∀ (folder : String) (entries : List Entry) (e : Entry),
        e ∈ entries → e.isFile = true →
        lowerString (pySuffix e.name) ∈ supported_formats →
        pyJoin folder e.name ∈ get_video_files folder entries) ∧
    get_video_files "D" [⟨"movie_compressed.mp4", true, blankEnv⟩] =
      ["D/movie_compressed.mp4"] ∧
    out_name "movie_compressed.mp4" = "movie_compressed_compressed.mp4" := by
  refine ⟨fun e1 e2 hfile hsuf => ?_, fun folder entries e he hf hs => ?_,
    by decide, by decide⟩
  · unfold videoFilter
    rw [hfile, hsuf]
  · refine List.mem_map.mpr ⟨e, List.mem_filter.mpr ⟨he, ?_⟩, rfl⟩
    simp only [videoFilter, Bool.and_eq_true, decide_eq_true_eq]
    exact ⟨hf, hs⟩

/-- Closed witness for C10: the output of a previous run is discovered
again. -/
theorem C10_compressed_suffix_not_skipped_witness :
    pyJoin "D" "movie_compressed.mp4" ∈
      get_video_files "D" [⟨"movie_compressed.mp4", true, blankEnv⟩] :=
  C10_compressed_suffix_not_skipped.2.1 "D"
    [⟨"movie_compressed.mp4", true, blankEnv⟩]
    ⟨"movie_compressed.mp4", true, blankEnv⟩ (by decide) rfl (by decide)

end VideoCompressor
